import Mathlib

/-!
Verification of the RBAC Policy Resolution & Reconciliation Engine
(BinaryBrains-fastify).

Shallow embedding of:
  - the Policy Index Builder and cached index lookup (src/utils/rbacUtil.ts),
  - the single-entry authorization cache (src/utils/types.ts NodeCache helpers),
  - the ACL Reconciler (src/controllers/policyController.ts:
    createAccessControl / deleteAccessControl / updateAccessControlList),
  - the Policy data model with its composite unique index over all rows
    (entities/Policy.ts).

Modelling notes:
  - JavaScript strings are Lean `String`; `toLowerCase`/`toUpperCase` are
    modelled by ASCII case-mapping over the character list (the repository's
    dimension names are ASCII).  JS falsiness of a string (`!s`) is emptiness.
  - Timestamps (`createdAt`/`updatedAt`) and logging are omitted: no claim
    depends on them.  Audit references `createdBy`/`updatedBy` are kept.
  - The generic SQL CRUD primitives (utils/sql/sqlUtils) and `isInvalid`
    (utils/util) are not present in the sources; they are modelled from the
    spec (see the individual doc comments), each applied exactly with the
    where-clauses its in-source callers pass.
  - The NodeCache entry for RBAC_POLICY_MAP_CACHE_KEY is modelled as a single
    `Option RBACMap` cell; TTL expiry is an external event and is not needed
    by any claim settled here.
-/

deriving instance DecidableEq for Except

/-- Model of JavaScript `String.prototype.toLowerCase` (ASCII). -/
def lowerStr (s : String) : String := ⟨s.data.map Char.toLower⟩

/-- Model of JavaScript `String.prototype.toUpperCase` (ASCII). -/
def upperStr (s : String) : String := ⟨s.data.map Char.toUpper⟩

/-- Model of JavaScript string falsiness (`!s` is true exactly for `""`). -/
def strEmpty (s : String) : Bool := s.data.isEmpty

/-! ## Policy Index Builder (src/utils/rbacUtil.ts) -/

/-- Joined view of a Policy row as consumed by `buildRBACMap`
(`PolicyType` in rbacUtil.ts).  Each dimension field is the related row's
`name`; `none` models a null/absent relation or name, which the builder's
optional chaining (`policy?.role?.name?`) turns into a skipped entry. -/
structure PolicyType where
  id : String
  role : Option String
  permission : Option String
  resource : Option String
  scope : Option String
deriving DecidableEq

/-- A JS object used as a string-keyed map, modelled as an association list
(first binding of a key wins on lookup; assignment overwrites in place). -/
def getA {α : Type} : List (String × α) → String → Option α
  | [], _ => none
  | (k', v) :: rest, k => if k' = k then some v else getA rest k

/-- JS property assignment `m[k] = v` (overwrite or append). -/
def setA {α : Type} : List (String × α) → String → α → List (String × α)
  | [], k, v => [(k, v)]
  | (k', v') :: rest, k, v =>
      if k' = k then (k, v) :: rest else (k', v') :: setA rest k v

/-- The nested RBAC map `role → resource → permission → scope → policy id`
(`RBACMap` in rbacUtil.ts). -/
abbrev ScopeLeaf := List (String × String)
abbrev PermMap := List (String × ScopeLeaf)
abbrev ResMap := List (String × PermMap)
abbrev RBACMap := List (String × ResMap)

instance : DecidableEq ScopeLeaf := inferInstance

instance : DecidableEq PermMap := inferInstance

instance : DecidableEq ResMap := inferInstance

instance : DecidableEq RBACMap := inferInstance

/-- `policy?.dim?.name?.toUpperCase()`: upper-cased name, `""` when the
relation or name is absent (JS `undefined` is as falsy as `""`). -/
def upName : Option String → String
  | none => ""
  | some s => upperStr s

/-- The builder's skip condition `(!role || !permission || !resource || !scope)`
after upper-casing. -/
def badPol (pol : PolicyType) : Bool :=
  strEmpty (upName pol.role) || strEmpty (upName pol.permission) ||
  strEmpty (upName pol.resource) || strEmpty (upName pol.scope)

/-- One loop body of `buildRBACMap`:
`policiesMap[role] ??= {}; policiesMap[role][resource] ??= {};
policiesMap[role][resource][permission] ??= {};
policiesMap[role][resource][permission][scope] = policy.id`. -/
def insertPolicy (m : RBACMap) (r x p s v : String) : RBACMap :=
  let rm := (getA m r).getD []
  let xm := (getA rm x).getD []
  let pm := (getA xm p).getD []
  setA m r (setA rm x (setA xm p (setA pm s v)))

/-- One iteration of the `for (const policy of policies)` loop in
`buildRBACMap`: upper-case the four names, skip if any is empty/absent,
otherwise insert the leaf. -/
def buildStep (m : RBACMap) (pol : PolicyType) : RBACMap :=
  if badPol pol then m
  else insertPolicy m (upName pol.role) (upName pol.resource)
    (upName pol.permission) (upName pol.scope) pol.id

/-- `buildRBACMap` (rbacUtil.ts): folds the loop body over the fetched
policies starting from `{}`.  The surrounding try/catch cannot fire in this
pure model (the loop body is total), so the `return {}` arm is dead code. -/
def buildRBACMap (policies : List PolicyType) : RBACMap :=
  policies.foldl buildStep []

/-- Presence/value query of the four-level path in an `RBACMap`: descend
through the four key levels, treating a missing intermediate level as the
empty object (so the result is `none` exactly when some level is absent). -/
def lookupPath (m : RBACMap) (r x p s : String) : Option String :=
  getA ((getA ((getA ((getA m r).getD []) x).getD []) p).getD []) s

/-- A policy contributes the path `(r, x, p, s)`: its four upper-cased names
are exactly those keys and none of them is empty/absent. -/
def polMatches (pol : PolicyType) (r x p s : String) : Bool :=
  upName pol.role == r && upName pol.resource == x &&
  upName pol.permission == p && upName pol.scope == s && !(badPol pol)

/-- Id of the last policy in the list contributing the path `(r, x, p, s)`
(later loop iterations overwrite the leaf). -/
def lastMatchId (ps : List PolicyType) (r x p s : String) : Option String :=
  (ps.reverse.find? (fun pol => polMatches pol r x p s)).map (·.id)

/-! ## Data model and Policy Store (entities/Policy.ts, spec §3/§4.2) -/

/-- A Role/Permission/Resource/Scope row, restricted to the fields the engine
reads: uuid `id`, `name`, soft-delete flag (`tinyint` 0/1 modelled as Bool). -/
structure DimRow where
  id : String
  name : String
  isDeleted : Bool
deriving DecidableEq

/-- A Policy row (entities/Policy.ts): uuid `id`, four foreign keys, the
soft-delete flag, and the audit references.  The entity's
`@Unique("policy_table_unique_constraints", [role, permission, resource,
scope])` composite index covers all rows regardless of `isDeleted`. -/
structure PolicyRow where
  id : String
  roleId : String
  permissionId : String
  resourceId : String
  scopeId : String
  isDeleted : Bool
  createdBy : Option String
  updatedBy : Option String
deriving DecidableEq

/-- The relational store: one table per dimension plus the policy table and a
counter for generated uuids. -/
structure Store where
  roles : List DimRow
  permissions : List DimRow
  resources : List DimRow
  scopes : List DimRow
  policies : List PolicyRow
  nextId : Nat
deriving DecidableEq

/-- Storage-level failures (spec §7 taxonomy; `NotFound` is represented by
`Option` results, not an error). -/
inductive DbErr where
  | constraintViolation
  | fatal (msg : String)
deriving DecidableEq

/-- Modelled from the spec: the generic find-one CRUD primitive
(`getSingleRecord`, utils/sql/sqlUtils is absent from the sources) applied at
a dimension table with the where-clause every reconciler call site passes:
`{ name: <key>, isDeleted: 0 }` — first row whose name equals the key and
which is not soft-deleted. -/
def findActiveDim (rows : List DimRow) (key : String) : Option DimRow :=
  rows.find? (fun r => r.name == key && !r.isDeleted)

/-- Modelled from the spec: `getSingleRecord` at the Policy table with the
where-clause the reconciler passes: the four resolved foreign keys plus
`isDeleted: 0` (`find_active` in spec §4.2). -/
def findActivePolicy (ps : List PolicyRow)
    (rid pid xid sid : String) : Option PolicyRow :=
  ps.find? (fun p => p.roleId == rid && p.permissionId == pid &&
    p.resourceId == xid && p.scopeId == sid && !p.isDeleted)

/-- Tuple occupancy in any state, the predicate enforced by the entity's
composite unique index (spec §4.2 `find_any`, ignoring `isDeleted`). -/
def findAnyPolicy (ps : List PolicyRow)
    (rid pid xid sid : String) : Option PolicyRow :=
  ps.find? (fun p => p.roleId == rid && p.permissionId == pid &&
    p.resourceId == xid && p.scopeId == sid)

/-- Fresh uuid for an inserted policy row. -/
def freshPolicyId (n : Nat) : String := "pol_" ++ toString n

/-- Modelled from the spec: the create CRUD primitive (`createRecords`,
utils/sql/sqlUtils is absent from the sources) at the Policy table: per spec
§4.2 it fails with `ConstraintViolation` when the exact tuple already exists
in any state (the entity's unique composite index spans soft-deleted rows),
otherwise inserts a new row with a fresh id and the caller's field values
(`isDeleted: 0`, audit references set to the acting user). -/
def createPolicyRecord (st : Store) (rid pid xid sid : String)
    (userId : Option String) : Except DbErr (PolicyRow × Store) :=
  if (findAnyPolicy st.policies rid pid xid sid).isSome then
    .error .constraintViolation
  else
    let row : PolicyRow :=
      { id := freshPolicyId st.nextId, roleId := rid, permissionId := pid
        resourceId := xid, scopeId := sid, isDeleted := false
        createdBy := userId, updatedBy := userId }
    .ok (row, { st with policies := st.policies ++ [row]
                        nextId := st.nextId + 1 })

/-- Modelled from the spec: the update CRUD primitive (`updateRecords`,
utils/sql/sqlUtils is absent from the sources) applied with the reconciler's
soft-delete call: filter `{ id: <policy id> }`, update
`{ isDeleted: 1, updatedBy: <actor> }` (timestamps omitted). -/
def softDeletePolicyById (st : Store) (pid : String)
    (userId : Option String) : Store :=
  { st with policies := st.policies.map (fun p =>
      if p.id == pid then { p with isDeleted := true, updatedBy := userId }
      else p) }

/-- Modelled from the spec: `isInvalid` (utils/util is absent from the
sources): a required request field is invalid when missing or empty; for the
reconciler's string fields this is emptiness. -/
def isInvalid (s : String) : Bool := strEmpty s

/-! ## ACL Reconciler (src/controllers/policyController.ts) -/

inductive GrantOrRevoke where
  | grant
  | revoke
deriving DecidableEq

/-- One declarative intent (`AccessControl` in policyController.ts); the
`grantOrRevoke` field is optional in the TS interface. -/
structure AccessControl where
  role : String
  permission : String
  resource : String
  scope : String
  grantOrRevoke : Option GrantOrRevoke
deriving DecidableEq

/-- `createAccessControl` (policyController.ts): the grant path.  Invalid
fields or unresolved names return early without touching the store; an
existing active policy is a no-op; otherwise `createRecords` is attempted
directly — there is no `find_any`-then-restore step — and its failure is
caught and rethrown as `Error("Failed to create policy.")`. -/
def createAccessControl (ac : AccessControl) (userId : Option String)
    (st : Store) : Except String Store :=
  if isInvalid ac.role || isInvalid ac.permission ||
      isInvalid ac.resource || isInvalid ac.scope then .ok st
  else
    match findActiveDim st.roles (lowerStr ac.role),
        findActiveDim st.permissions (lowerStr ac.permission),
        findActiveDim st.resources (lowerStr ac.resource),
        findActiveDim st.scopes (lowerStr ac.scope) with
    | some roleDoc, some permDoc, some resDoc, some scopeDoc =>
      match findActivePolicy st.policies roleDoc.id permDoc.id
          resDoc.id scopeDoc.id with
      | some _ => .ok st
      | none =>
        match createPolicyRecord st roleDoc.id permDoc.id resDoc.id
            scopeDoc.id userId with
        | .ok (_, st') => .ok st'
        | .error _ => .error "Failed to create policy."
    | _, _, _, _ => .ok st

/-- `deleteAccessControl` (policyController.ts): the revoke path.  Invalid
fields or unresolved names return early; no matching active policy is a
no-op; otherwise the row is soft-deleted by id. -/
def deleteAccessControl (ac : AccessControl) (userId : Option String)
    (st : Store) : Except String Store :=
  if isInvalid ac.role || isInvalid ac.permission ||
      isInvalid ac.resource || isInvalid ac.scope then .ok st
  else
    match findActiveDim st.roles (lowerStr ac.role),
        findActiveDim st.permissions (lowerStr ac.permission),
        findActiveDim st.resources (lowerStr ac.resource),
        findActiveDim st.scopes (lowerStr ac.scope) with
    | some roleDoc, some permDoc, some resDoc, some scopeDoc =>
      match findActivePolicy st.policies roleDoc.id permDoc.id
          resDoc.id scopeDoc.id with
      | none => .ok st
      | some existing => .ok (softDeletePolicyById st existing.id userId)
    | _, _, _, _ => .ok st

/-- Loop body of `updateAccessControlList`: dispatch on `grantOrRevoke`
(`grant` → create, `revoke` → delete, anything else is skipped). -/
def applyIntent (ac : AccessControl) (userId : Option String)
    (st : Store) : Except String Store :=
  match ac.grantOrRevoke with
  | some .grant => createAccessControl ac userId st
  | some .revoke => deleteAccessControl ac userId st
  | none => .ok st

/-- The sequential `for (const ac of accessControls)` loop: on a thrown error
processing stops; the store keeps every effect applied so far (there is no
transaction and no rollback) and the error escapes to the handler's catch. -/
def runBatch : List AccessControl → Option String → Store →
    Store × Option String
  | [], _, st => (st, none)
  | ac :: rest, u, st =>
    match applyIntent ac u st with
    | .ok st' => runBatch rest u st'
    | .error e => (st, some e)

/-- At least one of an intent's four names fails to resolve to an active
dimension row of the store. -/
def resolutionFails (ac : AccessControl) (st : Store) : Prop :=
  findActiveDim st.roles (lowerStr ac.role) = none ∨
  findActiveDim st.permissions (lowerStr ac.permission) = none ∨
  findActiveDim st.resources (lowerStr ac.resource) = none ∨
  findActiveDim st.scopes (lowerStr ac.scope) = none

/-! ## Authorization Cache and cached index lookup
(src/utils/types.ts NodeCache helpers, src/utils/rbacUtil.ts) -/

/-- Resolve a policy row's four relations to their rows' names
(the `relations: { permission, resource, scope, role }` eager join). -/
def joinPolicy (st : Store) (p : PolicyRow) : PolicyType :=
  { id := p.id
    role := (st.roles.find? (fun d => d.id == p.roleId)).map (·.name)
    permission :=
      (st.permissions.find? (fun d => d.id == p.permissionId)).map (·.name)
    resource :=
      (st.resources.find? (fun d => d.id == p.resourceId)).map (·.name)
    scope := (st.scopes.find? (fun d => d.id == p.scopeId)).map (·.name) }

/-- Modelled from the spec: the relation-eager find-many CRUD primitive for
Policy (`getAllRecordsWithFilter`, utils/sql/sqlUtils is absent from the
sources): returns the joined view of every policy row matching the caller's
where-filter.  Every other in-source caller of the find primitives passes
`isDeleted: 0` explicitly, so the primitive itself applies only the given
filter; `getRBACPolicyMap` passes the EMPTY filter `policyQuery = {}`,
i.e. `fun _ => true`. -/
def getAllRecordsWithFilter (st : Store) (filter : PolicyRow → Bool) :
    List PolicyType :=
  (st.policies.filter filter).map (joinPolicy st)

/-- `getRBACPolicyMap` (rbacUtil.ts) over the single NodeCache entry for
`RBAC_POLICY_MAP_CACHE_KEY` (types.ts): on a hit the cached map is returned
unchanged; on a miss the fetched policies (the outcome of the awaited
`getAllRecordsWithFilter` call, which may fail) are compiled and cached;
a thrown storage error is caught and `{}` is returned with the cache entry
left unset. -/
def getRBACPolicyMapCore (cached : Option RBACMap)
    (fetched : Except DbErr (List PolicyType)) : RBACMap × Option RBACMap :=
  match cached with
  | some m => (m, some m)
  | none =>
    match fetched with
    | .ok policies =>
      let m := buildRBACMap policies
      (m, some m)
    | .error _ => ([], none)

/-- Process-wide state the engine's claims range over: the relational store
plus the one cached index entry. -/
structure SysState where
  store : Store
  rbacCache : Option RBACMap
deriving DecidableEq

/-- `getRBACPolicyMap` at the system level: the fetch is the empty-filter
relation-eager read of the policy table (the happy path; the fallible fetch
is exercised through `getRBACPolicyMapCore` directly). -/
def getRBACPolicyMapS (s : SysState) : RBACMap × SysState :=
  let r := getRBACPolicyMapCore s.rbacCache
    (.ok (getAllRecordsWithFilter s.store (fun _ => true)))
  (r.1, { s with rbacCache := r.2 })

/-- Modelled from the spec: `authorize` (spec §4.4/§6) — the query-facing
lookup API is not among the sources; per the spec it fetches the index
(possibly rebuilding it) and checks presence of the four-level path after
upper-casing the inputs. -/
def authorize (role permission resource scope : String) (s : SysState) :
    Bool × SysState :=
  let r := getRBACPolicyMapS s
  ((lookupPath r.1 (upperStr role) (upperStr resource)
      (upperStr permission) (upperStr scope)).isSome, r.2)

/-- `updateAccessControlList` (policyController.ts): rejects an empty batch
with 400, otherwise runs the loop; a thrown error is answered with 500, the
happy path with 200.  The handler contains no cache call: `s.rbacCache` is
passed through untouched on every path. -/
def updateAccessControlList (acs : List AccessControl)
    (userId : Option String) (s : SysState) : SysState × Nat :=
  if acs.isEmpty then (s, 400)
  else
    match runBatch acs userId s.store with
    | (st', none) => ({ s with store := st' }, 200)
    | (st', some _) => ({ s with store := st' }, 500)

/-! ## Concrete fixtures -/

/-- Seed dimension rows (spec §8 end-to-end scenario). -/
def roleAdmin : DimRow := { id := "r1", name := "admin", isDeleted := false }

def permRead : DimRow := { id := "p1", name := "read", isDeleted := false }

def resUser : DimRow := { id := "x1", name := "user", isDeleted := false }

def scopeGlobal : DimRow := { id := "s1", name := "global", isDeleted := false }

/-- Store with the four seed dimensions and no policy rows. -/
def baseStore : Store :=
  { roles := [roleAdmin], permissions := [permRead], resources := [resUser]
    scopes := [scopeGlobal], policies := [], nextId := 0 }

/-- The tuple's only row, soft-deleted (a previously granted then revoked
policy). -/
def deletedPolicyRow : PolicyRow :=
  { id := "pol_old", roleId := "r1", permissionId := "p1", resourceId := "x1"
    scopeId := "s1", isDeleted := true, createdBy := none, updatedBy := none }

/-- Store whose tuple (admin, read, user, global) exists only soft-deleted. -/
def softDeletedStore : Store :=
  { baseStore with policies := [deletedPolicyRow], nextId := 1 }

def grantACL : AccessControl :=
  { role := "admin", permission := "read", resource := "user"
    scope := "global", grantOrRevoke := some .grant }

def revokeACL : AccessControl :=
  { role := "admin", permission := "read", resource := "user"
    scope := "global", grantOrRevoke := some .revoke }

/-- An intent whose role name resolves to no active dimension row. -/
def ghostACL : AccessControl :=
  { role := "ghost", permission := "read", resource := "user"
    scope := "global", grantOrRevoke := some .grant }

/-- A joined policy whose stored names mix letter cases. -/
def mixedCasePol : PolicyType :=
  { id := "pol9", role := some "Admin", permission := some "read"
    resource := some "user", scope := some "Global" }

/-! ## Association-list lemmas -/

theorem getA_setA_self {α : Type} (m : List (String × α)) (k : String)
    (v : α) : getA (setA m k v) k = some v := by
  induction m with
  | nil => simp [getA, setA]
  | cons kv rest ih =>
    obtain ⟨k0, v0⟩ := kv
    by_cases h : k0 = k
    · simp [setA, h, getA]
    · simp [setA, h, getA, ih]

theorem getA_setA_ne {α : Type} (m : List (String × α)) (k k' : String)
    (v : α) (h : k ≠ k') : getA (setA m k v) k' = getA m k' := by
  induction m with
  | nil => simp [getA, setA, h]
  | cons kv rest ih =>
    obtain ⟨k0, v0⟩ := kv
    by_cases h0 : k0 = k
    · subst h0
      simp [setA, getA, h]
    · simp [setA, h0, getA, ih]

theorem lookupPath_insertPolicy (m : RBACMap) (r x p s v r' x' p' s' :
    String) :
    lookupPath (insertPolicy m r x p s v) r' x' p' s' =
      if r = r' ∧ x = x' ∧ p = p' ∧ s = s' then some v
      else lookupPath m r' x' p' s' := by
  simp only [insertPolicy, lookupPath]
  by_cases hr : r = r'
  · subst hr
    rw [getA_setA_self]
    by_cases hx : x = x'
    · subst hx
      simp only [Option.getD_some]
      rw [getA_setA_self]
      by_cases hp : p = p'
      · subst hp
        simp only [Option.getD_some]
        rw [getA_setA_self]
        by_cases hs : s = s'
        · subst hs
          simp only [Option.getD_some]
          rw [getA_setA_self]
          simp
        · simp only [Option.getD_some]
          rw [getA_setA_ne _ _ _ _ hs, if_neg (fun hc => hs hc.2.2.2)]
      · simp only [Option.getD_some]
        rw [getA_setA_ne _ _ _ _ hp, if_neg (fun hc => hp hc.2.2.1)]
    · simp only [Option.getD_some]
      rw [getA_setA_ne _ _ _ _ hx, if_neg (fun hc => hx hc.2.1)]
  · rw [getA_setA_ne _ _ _ _ hr, if_neg (fun hc => hr hc.1)]

theorem lookupPath_buildStep (m : RBACMap) (pol : PolicyType)
    (r x p s : String) :
    lookupPath (buildStep m pol) r x p s =
      if polMatches pol r x p s then some pol.id
      else lookupPath m r x p s := by
  unfold buildStep
  by_cases hb : badPol pol
  · rw [if_pos hb, if_neg (by simp [polMatches, hb])]
  · have hb' : badPol pol = false := by
      revert hb; cases badPol pol <;> simp
    rw [if_neg hb, lookupPath_insertPolicy]
    by_cases hm : upName pol.role = r ∧ upName pol.resource = x ∧
        upName pol.permission = p ∧ upName pol.scope = s
    · rw [if_pos hm,
        if_pos (by simp [polMatches, hm.1, hm.2.1, hm.2.2.1, hm.2.2.2, hb'])]
    · rw [if_neg hm, if_neg]
      intro hc
      apply hm
      simp only [polMatches, Bool.and_eq_true, beq_iff_eq] at hc
      exact ⟨hc.1.1.1.1, hc.1.1.1.2, hc.1.1.2, hc.1.2⟩

theorem lookupPath_nil (r x p s : String) :
    lookupPath ([] : RBACMap) r x p s = none := by
  simp [lookupPath, getA]

theorem lookupPath_foldl (ps : List PolicyType) (m : RBACMap)
    (r x p s : String) :
    lookupPath (ps.foldl buildStep m) r x p s =
      (lastMatchId ps r x p s).or (lookupPath m r x p s) := by
  induction ps generalizing m with
  | nil => simp [lastMatchId]
  | cons pol rest ih =>
    rw [List.foldl_cons, ih, lookupPath_buildStep]
    cases h : rest.reverse.find? (fun q => polMatches q r x p s) with
    | some q =>
      simp [lastMatchId, List.find?_append, h]
    | none =>
      cases hf : polMatches pol r x p s <;>
        simp [lastMatchId, List.find?_append, h, hf, List.find?]

theorem buildRBACMap_lookup (ps : List PolicyType) (r x p s : String) :
    lookupPath (buildRBACMap ps) r x p s = lastMatchId ps r x p s := by
  unfold buildRBACMap
  rw [lookupPath_foldl, lookupPath_nil]
  cases lastMatchId ps r x p s <;> simp

/-! ## Helper lemmas for the reconciler -/

theorem strEmpty_of_lowerStr_eq {a b : String}
    (h : lowerStr a = lowerStr b) : strEmpty a = strEmpty b := by
  have hd : a.data.map Char.toLower = b.data.map Char.toLower :=
    congrArg String.data h
  have hl : a.data.length = b.data.length := by
    have := congrArg List.length hd
    simpa using this
  cases ha : a.data with
  | nil =>
    cases hb : b.data with
    | nil => simp [strEmpty, ha, hb]
    | cons y ys => rw [ha, hb] at hl; simp at hl
  | cons z zs =>
    cases hb : b.data with
    | nil => rw [ha, hb] at hl; simp at hl
    | cons y ys => simp [strEmpty, ha, hb]

theorem createAccessControl_congr (ac1 ac2 : AccessControl)
    (u : Option String) (st : Store)
    (hr : lowerStr ac1.role = lowerStr ac2.role)
    (hp : lowerStr ac1.permission = lowerStr ac2.permission)
    (hx : lowerStr ac1.resource = lowerStr ac2.resource)
    (hs : lowerStr ac1.scope = lowerStr ac2.scope) :
    createAccessControl ac1 u st = createAccessControl ac2 u st := by
  unfold createAccessControl isInvalid
  rw [strEmpty_of_lowerStr_eq hr, strEmpty_of_lowerStr_eq hp,
    strEmpty_of_lowerStr_eq hx, strEmpty_of_lowerStr_eq hs, hr, hp, hx, hs]

theorem deleteAccessControl_congr (ac1 ac2 : AccessControl)
    (u : Option String) (st : Store)
    (hr : lowerStr ac1.role = lowerStr ac2.role)
    (hp : lowerStr ac1.permission = lowerStr ac2.permission)
    (hx : lowerStr ac1.resource = lowerStr ac2.resource)
    (hs : lowerStr ac1.scope = lowerStr ac2.scope) :
    deleteAccessControl ac1 u st = deleteAccessControl ac2 u st := by
  unfold deleteAccessControl isInvalid
  rw [strEmpty_of_lowerStr_eq hr, strEmpty_of_lowerStr_eq hp,
    strEmpty_of_lowerStr_eq hx, strEmpty_of_lowerStr_eq hs, hr, hp, hx, hs]

theorem createAccessControl_noresolve (ac : AccessControl)
    (u : Option String) (st : Store) (h : resolutionFails ac st) :
    createAccessControl ac u st = .ok st := by
  unfold createAccessControl
  by_cases hinv : (isInvalid ac.role || isInvalid ac.permission ||
      isInvalid ac.resource || isInvalid ac.scope) = true
  · simp [hinv]
  · rw [if_neg hinv]
    cases h1 : findActiveDim st.roles (lowerStr ac.role) <;>
      cases h2 : findActiveDim st.permissions (lowerStr ac.permission) <;>
        cases h3 : findActiveDim st.resources (lowerStr ac.resource) <;>
          cases h4 : findActiveDim st.scopes (lowerStr ac.scope) <;>
            simp_all [resolutionFails]

theorem deleteAccessControl_noresolve (ac : AccessControl)
    (u : Option String) (st : Store) (h : resolutionFails ac st) :
    deleteAccessControl ac u st = .ok st := by
  unfold deleteAccessControl
  by_cases hinv : (isInvalid ac.role || isInvalid ac.permission ||
      isInvalid ac.resource || isInvalid ac.scope) = true
  · simp [hinv]
  · rw [if_neg hinv]
    cases h1 : findActiveDim st.roles (lowerStr ac.role) <;>
      cases h2 : findActiveDim st.permissions (lowerStr ac.permission) <;>
        cases h3 : findActiveDim st.resources (lowerStr ac.resource) <;>
          cases h4 : findActiveDim st.scopes (lowerStr ac.scope) <;>
            simp_all [resolutionFails]

/-! ## Claim theorems -/

/-- C5 (confirmed): the index builder is a pure function of its input list:
`buildRBACMap P` contains the four-level path `r → x → p → s` (keys
upper-cased) iff some policy in `P` has those four dimension names
case-insensitively with none of them empty/absent; the leaf value is such a
policy's id; and a policy with an empty or absent dimension name is skipped
without affecting the rest of the map. -/
theorem buildRBACMap_index_correct (ps : List PolicyType) (r x p s : String) :
    ((lookupPath (buildRBACMap ps) r x p s).isSome = true ↔
      ∃ pol ∈ ps, polMatches pol r x p s = true)
    ∧ (∀ v, lookupPath (buildRBACMap ps) r x p s = some v →
        ∃ pol ∈ ps, polMatches pol r x p s = true ∧ pol.id = v)
    ∧ (∀ ps1 ps2 pol, badPol pol = true →
        buildRBACMap (ps1 ++ pol :: ps2) = buildRBACMap (ps1 ++ ps2)) := by
  refine ⟨?_, ?_, ?_⟩
  · rw [buildRBACMap_lookup]
    simp [lastMatchId, List.find?_isSome, List.mem_reverse]
  · intro v hv
    rw [buildRBACMap_lookup] at hv
    simp only [lastMatchId, Option.map_eq_some'] at hv
    obtain ⟨q, hq, hid⟩ := hv
    refine ⟨q, List.mem_reverse.mp (List.mem_of_find?_eq_some hq), ?_, hid⟩
    have hpq := List.find?_some hq
    simpa using hpq
  · intro ps1 ps2 pol hbad
    simp [buildRBACMap, List.foldl_append, List.foldl_cons, buildStep, hbad]

/-- Witness for C5 at a concrete mixed-case policy list. -/
theorem buildRBACMap_index_correct_witness :
    (lookupPath (buildRBACMap [mixedCasePol]) "ADMIN" "USER" "READ"
      "GLOBAL").isSome = true :=
  (buildRBACMap_index_correct [mixedCasePol] "ADMIN" "USER" "READ"
    "GLOBAL").1.mpr ⟨mixedCasePol, by decide, by decide⟩

/-- C1 (code bug): on a store whose (admin, read, user, global) row exists
only soft-deleted after a grant→revoke prefix, the second grant does not
restore the row: the batch aborts with `Failed to create policy.` (the
blind insert hits the composite unique index) and afterwards the tuple has
no active row at all — its single row is still the soft-deleted one. -/
theorem grant_revoke_grant_errors_instead_of_restoring :
    (runBatch [grantACL, revokeACL, grantACL] none baseStore).2
        = some "Failed to create policy."
    ∧ ((runBatch [grantACL, revokeACL, grantACL] none
        baseStore).1.policies.filter (fun q => !q.isDeleted)) = []
    ∧ (runBatch [grantACL, revokeACL, grantACL] none
        baseStore).1.policies.length = 1 := by decide

/-- C2 (code bug): the cache-miss rebuild fetches with the empty filter, so
a store whose only policy row is soft-deleted still yields an index that
contains the tuple's four-level path even though no active policy exists. -/
theorem rebuild_includes_soft_deleted_policy :
    lookupPath (getRBACPolicyMapS
        { store := softDeletedStore, rbacCache := none }).1
        "ADMIN" "USER" "READ" "GLOBAL" = some "pol_old"
    ∧ findActivePolicy softDeletedStore.policies "r1" "p1" "x1" "s1" = none
    ∧ deletedPolicyRow.isDeleted = true := by decide

/-- C3 (code bug): a successful batch (status 200) that creates an active
policy row leaves the cached index entry exactly as it was (here the stale
deny-all empty map), so the next authorization lookup still serves the stale
index and denies the freshly granted tuple. -/
theorem batch_leaves_cache_entry_stale :
    (updateAccessControlList [grantACL] none
        { store := baseStore, rbacCache := some [] }).2 = 200
    ∧ (updateAccessControlList [grantACL] none
        { store := baseStore, rbacCache := some [] }).1.rbacCache = some []
    ∧ (authorize "admin" "read" "user" "global"
        (updateAccessControlList [grantACL] none
          { store := baseStore, rbacCache := some [] }).1).1 = false
    ∧ (findActivePolicy (updateAccessControlList [grantACL] none
        { store := baseStore, rbacCache := some [] }).1.store.policies
        "r1" "p1" "x1" "s1").isSome = true := by decide

/-- C4 (code bug): with no concurrent writer, a single sequential grant on a
store whose tuple row is soft-deleted reaches the `ConstraintViolation`
branch — the grant path checks only `isDeleted: 0`, never the tuple's
occupancy in any state, before calling create. -/
theorem constraint_violation_reachable_without_concurrency :
    createPolicyRecord softDeletedStore "r1" "p1" "x1" "s1" none
        = .error .constraintViolation
    ∧ createAccessControl grantACL none softDeletedStore
        = .error "Failed to create policy." := by decide

/-- C6 (code bug): granting the same resolvable intent twice from the store
whose tuple row is soft-deleted errors on the first (and any repeated)
application — the batch aborts, the store is unchanged and zero active rows
remain, instead of exactly one active row with an error-free second call. -/
theorem double_grant_on_soft_deleted_tuple_errors :
    runBatch [grantACL, grantACL] none softDeletedStore
        = (softDeletedStore, some "Failed to create policy.")
    ∧ (softDeletedStore.policies.filter (fun q => !q.isDeleted)).length
        = 0 := by decide

/-- C7 (counterexample): two grant intents whose role differs only in
leading/trailing whitespace do not behave identically: the padded variant
resolves no dimension row (lookup keys are lower-cased but never trimmed)
and is a silent no-op, while the unpadded variant mutates the store. -/
theorem whitespace_variant_changes_effect :
    createAccessControl { grantACL with role := " admin " } none baseStore
        = .ok baseStore
    ∧ createAccessControl grantACL none baseStore ≠ .ok baseStore
    ∧ findActiveDim baseStore.roles (lowerStr " admin ") = none
    ∧ findActiveDim baseStore.roles (lowerStr "ADMIN")
        = some roleAdmin := by decide

/-- C7 (amended): name resolution lower-cases each name before looking it up
among non-soft-deleted rows but does NOT trim whitespace, so two intents
whose names differ only in letter case (same action) resolve to the same
dimension rows and produce identical effects. -/
theorem intent_effects_case_insensitive (ac1 ac2 : AccessControl)
    (u : Option String) (st : Store)
    (hr : lowerStr ac1.role = lowerStr ac2.role)
    (hp : lowerStr ac1.permission = lowerStr ac2.permission)
    (hx : lowerStr ac1.resource = lowerStr ac2.resource)
    (hs : lowerStr ac1.scope = lowerStr ac2.scope)
    (hg : ac1.grantOrRevoke = ac2.grantOrRevoke) :
    applyIntent ac1 u st = applyIntent ac2 u st := by
  unfold applyIntent
  rw [hg]
  cases hgr : ac2.grantOrRevoke with
  | none => rfl
  | some g =>
    cases g with
    | grant => exact createAccessControl_congr ac1 ac2 u st hr hp hx hs
    | revoke => exact deleteAccessControl_congr ac1 ac2 u st hr hp hx hs

/-- Witness for the amended C7: the all-caps variant of the seed grant
behaves identically to the lower-case one. -/
theorem intent_effects_case_insensitive_witness :
    applyIntent
      { role := "Admin", permission := "READ", resource := "user"
        scope := "Global", grantOrRevoke := some .grant } none baseStore
      = applyIntent grantACL none baseStore :=
  intent_effects_case_insensitive _ _ none baseStore (by decide) (by decide)
    (by decide) (by decide) (by decide)

/-- C8 (confirmed): an intent one of whose four names resolves to no active
dimension row is a silent no-op — grant and revoke both return the store
unchanged without an error, and the batch loop continues with the remaining
intents as if the intent were absent. -/
theorem unresolved_name_silent_noop (ac : AccessControl) (u : Option String)
    (st : Store) (h : resolutionFails ac st) :
    createAccessControl ac u st = .ok st
    ∧ deleteAccessControl ac u st = .ok st
    ∧ ∀ rest, runBatch (ac :: rest) u st = runBatch rest u st := by
  have hc := createAccessControl_noresolve ac u st h
  have hd := deleteAccessControl_noresolve ac u st h
  refine ⟨hc, hd, fun rest => ?_⟩
  have ha : applyIntent ac u st = .ok st := by
    unfold applyIntent
    cases hg : ac.grantOrRevoke with
    | none => rfl
    | some g =>
      cases g with
      | grant => exact hc
      | revoke => exact hd
  simp [runBatch, ha]

/-- Witness for C8: a grant whose role name matches no dimension row leaves
the seed store untouched and reports no error. -/
theorem unresolved_name_silent_noop_witness :
    createAccessControl ghostACL none baseStore = .ok baseStore :=
  (unresolved_name_silent_noop ghostACL none baseStore
    (Or.inl (by decide))).1

/-- C9 (confirmed): if the store fails while processing intent k of a batch,
the batch aborts — the intents after k are never applied, the handler
answers 500 — and the state produced by the intents before k is kept
unchanged (no rollback), the cache cell being passed through untouched. -/
theorem batch_aborts_at_failing_intent (pre : List AccessControl)
    (ac : AccessControl) (post : List AccessControl) (u : Option String)
    (st st1 : Store) (e : String) (c : Option RBACMap)
    (hpre : runBatch pre u st = (st1, none))
    (hfail : applyIntent ac u st1 = .error e) :
    runBatch (pre ++ ac :: post) u st = (st1, some e)
    ∧ updateAccessControlList (pre ++ ac :: post) u
        { store := st, rbacCache := c }
      = ({ store := st1, rbacCache := c }, 500) := by
  have hrun : runBatch (pre ++ ac :: post) u st = (st1, some e) := by
    induction pre generalizing st with
    | nil =>
      simp [runBatch] at hpre
      subst hpre
      simp [runBatch, hfail]
    | cons a pre ih =>
      cases happ : applyIntent a u st with
      | ok st' =>
        simp only [runBatch, happ] at hpre
        simp only [List.cons_append, runBatch, happ]
        exact ih st' hpre
      | error e' =>
        simp [runBatch, happ] at hpre
  refine ⟨hrun, ?_⟩
  have hne : (pre ++ ac :: post).isEmpty = false := by
    cases pre <;> simp [List.isEmpty]
  simp [updateAccessControlList, hne, hrun]

/-- Witness for C9: a no-op revoke prefix, then a failing grant (blind
insert over the soft-deleted tuple), then one more grant that is never
reached: the batch stops at the failure with the prefix state kept. -/
theorem batch_aborts_at_failing_intent_witness :
    runBatch ([revokeACL] ++ grantACL :: [grantACL]) none softDeletedStore
      = (softDeletedStore, some "Failed to create policy.")
    ∧ updateAccessControlList ([revokeACL] ++ grantACL :: [grantACL]) none
        { store := softDeletedStore, rbacCache := none }
      = ({ store := softDeletedStore, rbacCache := none }, 500) :=
  batch_aborts_at_failing_intent [revokeACL] grantACL [grantACL] none
    softDeletedStore softDeletedStore "Failed to create policy." none
    (by decide) (by decide)

/-- C10 (confirmed): the cached-index lookup fails closed: a storage failure
during the cache-miss rebuild fetch is caught and yields the empty map with
the cache left unset, and under the empty map every four-level path lookup
is absent, i.e. every authorization check is denied. -/
theorem index_fetch_failure_fails_closed (e : DbErr) (r x p s : String) :
    getRBACPolicyMapCore none (.error e) = ([], none)
    ∧ lookupPath ([] : RBACMap) r x p s = none :=
  ⟨rfl, lookupPath_nil r x p s⟩
